import Mathlib

/-!
# cloudwatch-metrics-collector

A shallow embedding of `main.go`: metric discovery (`listMetrics`,
`parallelListMetrics`), the matching loop of `main`, batch construction
(`parallelGetMetricData`) and query generation (`getMetricData`).

Conventions of the embedding

* A Go run-time panic is an `Except.error` carrying a `Panic`.
* Calls to the AWS APIs are functions handed in as parameters; every call and
  every receive from a rate-limiter channel is recorded in a trace of `Event`s.
* Goroutines of one fan-out are run one after the other in submission order,
  which is one of the schedules the Go program admits.
* Go `int` values that are lengths and indices are natural numbers and stay far
  below the machine word; the `int64` products of the time window wrap around.
* Go strings are compared bytewise; on valid UTF-8 this is the lexicographic
  order of the code points, which is the order `strLE` below.
-/

namespace CWCollector

/-! ## Go run-time model -/

/-- Run-time panics of the program that the embedding distinguishes. -/
inductive Panic
  | indexOutOfRange
  | divideByZero
  | nilFuncCall
  | apiError (msg : String)
  deriving DecidableEq, Repr

instance exceptDecidableEq {ε α : Type} [DecidableEq ε] [DecidableEq α] :
    DecidableEq (Except ε α)
  | .ok a, .ok b =>
    if h : a = b then isTrue (by rw [h]) else isFalse (fun h1 => by cases h1; exact h rfl)
  | .error a, .error b =>
    if h : a = b then isTrue (by rw [h]) else isFalse (fun h1 => by cases h1; exact h rfl)
  | .ok _, .error _ => isFalse (fun h1 => by cases h1)
  | .error _, .ok _ => isFalse (fun h1 => by cases h1)

/-- Bytewise order of Go strings (`<=`), as lexicographic order on characters. -/
def strLE (a b : String) : Prop := a.data ≤ b.data

instance strLE.decidable : DecidableRel strLE :=
  fun a b => inferInstanceAs (Decidable (a.data ≤ b.data))

instance strLE.isTotal : IsTotal String strLE :=
  ⟨fun a b => le_total a.data b.data⟩

instance strLE.isTrans : IsTrans String strLE :=
  ⟨fun _ _ _ h1 h2 => le_trans (α := List Char) h1 h2⟩

instance strLE.isAntisymm : IsAntisymm String strLE :=
  ⟨fun a b h1 h2 => by
    cases a; cases b; simp only [strLE] at h1 h2; exact congrArg _ (le_antisymm h1 h2)⟩

/-- The effect of `sort.Sort(sort.StringSlice(s))`: the slice holds its elements in
ascending order afterwards. Equal strings are indistinguishable, so the result
does not depend on the sorting algorithm. -/
def sortStrings (s : List String) : List String := s.insertionSort strLE

/-- The effect of `strings.Replace(s, "-", "", -1)`: every hyphen is removed. -/
def stringsReplaceHyphen (s : String) : String :=
  String.mk (s.data.filter (fun c => c != '-'))

/-- A Go `map[string]string`. -/
abbrev GoMap := String → Option String

/-- The empty map literal `map[string]string{}`. -/
def GoMap.empty : GoMap := fun _ => none

/-- Assignment `m[k] = v`. -/
def GoMap.set (m : GoMap) (k v : String) : GoMap :=
  fun k1 => if k1 = k then some v else m k1

/-- Index expression `m[k]`: the zero value `""` for a missing key. -/
def GoMap.get (m : GoMap) (k : String) : String := (m k).getD ""

/-! ## Constants and configuration types (main.go 25-60) -/

def MaxMetricDataQuery : Nat := 100

def MaxRateLimitListMetrics : Nat := 25

def MaxRateLimitGetMetricData : Nat := 50

structure Metric where
  Name : String
  Statistics : String
  deriving DecidableEq, Repr

structure Service where
  StartTime : Int
  EndTime : Int
  Period : Int
  Namespace : String
  Dimensions : List String
  Metrics : List Metric
  deriving DecidableEq, Repr

/-! ## AWS SDK types used by the program -/

/-- The `cloudwatch.Dimension` name/value pair. -/
structure Dimension where
  Name : String
  Value : String
  deriving DecidableEq, Repr

/-- The `cloudwatch.Metric` entries returned by ListMetrics. -/
structure CWMetric where
  Namespace : String
  MetricName : String
  Dimensions : List Dimension
  deriving DecidableEq, Repr

structure ListMetricsInput where
  Namespace : String
  MetricName : String
  NextToken : Option String
  deriving DecidableEq, Repr

structure ListMetricsOutput where
  Metrics : List CWMetric
  NextToken : Option String
  deriving DecidableEq, Repr

structure MetricDataQuery where
  Id : String
  Namespace : String
  Dimensions : List Dimension
  MetricName : String
  Period : Int
  Stat : String
  deriving DecidableEq, Repr

structure GetMetricDataInput where
  EndTime : Int
  StartTime : Int
  MetricDataQueries : List MetricDataQuery
  deriving DecidableEq, Repr

/-- One entry of `MetricDataResults`. `Timestamps` are Unix seconds; `Values` holds
the `%v` rendering of each sample (the float itself is not modelled). -/
structure MetricDataResult where
  Id : String
  Timestamps : List Int
  Values : List String
  deriving DecidableEq, Repr

structure Tag where
  Key : String
  Value : String
  deriving DecidableEq, Repr

structure Instance where
  InstanceId : String
  StateName : String
  Tags : List Tag
  deriving DecidableEq, Repr

structure Reservation where
  Instances : List Instance
  deriving DecidableEq, Repr

/-- Observable actions of a run: receives from the two limiter channels and the
calls to the monitoring API. -/
inductive Event
  | limiterListMetrics
  | listMetrics (input : ListMetricsInput)
  | limiterGetMetricData
  | getMetricData (input : GetMetricDataInput)
  deriving DecidableEq, Repr

/-! ## Helpers (main.go 142-159) -/

/-- The function `joinValueFromDimensions`; `dimensions[0]` panics on an empty slice. -/
def joinValueFromDimensions : List Dimension → Except Panic String
  | [] => .error .indexOutOfRange
  | d :: rest => .ok (rest.foldl (fun dimTarget di => dimTarget ++ ("-" ++ di.Value)) d.Value)

/-- The function `arrayContains`. -/
def arrayContains : List String → String → Bool
  | [], _ => false
  | v :: arr, str => if v = str then true else arrayContains arr str

/-! ## Discovery (main.go 161-221) -/

/-- Lines 173-175: the request of the next call; the token is copied into the input
unless it is the empty string. -/
def listMetricsRequest (tok : String) (input : ListMetricsInput) : ListMetricsInput :=
  if tok ≠ "" then { input with NextToken := some tok } else input

/-- The `for nextToken != nil` loop of `listMetrics`. The first argument bounds the
number of iterations; `none` means the bound was reached with a token pending.
Returns the calls made and the accumulated `metricList` (or the panic). -/
def listMetricsLoop (api : ListMetricsInput → Except String ListMetricsOutput) :
    Nat → Option String → ListMetricsInput → List CWMetric →
      Option (List Event × Except Panic (List CWMetric))
  | _, none, _, metricList => some ([], .ok metricList)
  | 0, some _, _, _ => none
  | fuel + 1, some tok, input, metricList =>
    let input1 := listMetricsRequest tok input
    match api input1 with
    | .error e => some ([Event.listMetrics input1], .error (.apiError e))
    | .ok resp =>
      match listMetricsLoop api fuel resp.NextToken input1
          (metricList ++ resp.Metrics.filter (fun m => m.Dimensions.length != 0)) with
      | none => none
      | some (tr, r) => some (Event.listMetrics input1 :: tr, r)

/-- The function `listMetrics`. -/
def listMetrics (api : ListMetricsInput → Except String ListMetricsOutput) (fuel : Nat)
    (service : Service) (metricName : String) :
    Option (List Event × Except Panic (List CWMetric)) :=
  listMetricsLoop api fuel (some "")
    { Namespace := service.Namespace, MetricName := metricName, NextToken := none } []

/-- The goroutine body of `parallelListMetrics` (lines 207-216): one receive from the
limiter channel, then `listMetrics`. -/
def discoveryTask (api : ListMetricsInput → Except String ListMetricsOutput) (fuel : Nat)
    (service : Service) (metricName : String) :
    Option (List Event × Except Panic (List CWMetric)) :=
  match listMetrics api fuel service metricName with
  | none => none
  | some (tr, r) => some (Event.limiterListMetrics :: tr, r)

/-- The function `parallelListMetrics`, with one task per metric name. -/
def parallelListMetrics (api : ListMetricsInput → Except String ListMetricsOutput)
    (fuel : Nat) (service : Service) :
    List String → Option (List Event × Except Panic (List CWMetric))
  | [] => some ([], .ok [])
  | metricName :: rest =>
    match discoveryTask api fuel service metricName with
    | none => none
    | some (tr, .error e) => some (tr, .error e)
    | some (tr, .ok resp) =>
      match parallelListMetrics api fuel service rest with
      | none => none
      | some (tr1, .error e) => some (tr ++ tr1, .error e)
      | some (tr1, .ok metricList) => some (tr ++ tr1, .ok (resp ++ metricList))

/-- Number of receives from the discovery limiter in a trace. -/
def permits (tr : List Event) : Nat := tr.count Event.limiterListMetrics

/-- Whether an event is a ListMetrics call. -/
def Event.isListMetrics : Event → Bool
  | Event.listMetrics _ => true
  | _ => false

/-- Number of ListMetrics calls in a trace. -/
def calls (tr : List Event) : Nat := (tr.filter Event.isListMetrics).length

/-- The listing that starts with pending token `tok` and request `input` takes `n` calls:
the API answers the `n`-th call without a continuation token or with an error. -/
inductive PagesFrom (api : ListMetricsInput → Except String ListMetricsOutput) :
    Option String → ListMetricsInput → Nat → Prop
  | done (input : ListMetricsInput) : PagesFrom api none input 0
  | failed (tok : String) (input : ListMetricsInput) (e : String) :
      api (listMetricsRequest tok input) = .error e → PagesFrom api (some tok) input 1
  | page (tok : String) (input : ListMetricsInput) (resp : ListMetricsOutput) (n : Nat) :
      api (listMetricsRequest tok input) = .ok resp →
      PagesFrom api resp.NextToken (listMetricsRequest tok input) n →
      PagesFrom api (some tok) input (n + 1)

/-! ## Retrieval (main.go 223-320) -/

/-- The identifier built at line 238: `fmt.Sprintf("%s_%d", ...)`. -/
def metricDataId (instanceLabel : String) (idx : Nat) : String :=
  stringsReplaceHyphen instanceLabel ++ "_" ++ toString idx

/-- What the query-building loops of `getMetricData` (lines 230-256) produce. -/
structure QueryPlan where
  metricDataQueries : List MetricDataQuery
  queryId2InstanceLabel : GoMap
  queryId2MetricName : GoMap

/-- The inner loop `for idx, metric := range service.Metrics` (lines 236-255). -/
def getMetricData.metricsLoop (service : Service) (dimensions : List Dimension)
    (instanceLabel : String) : Nat → List Metric → QueryPlan → QueryPlan
  | _, [], p => p
  | idx, metric :: rest, p =>
    let metricDataId := metricDataId instanceLabel idx
    getMetricData.metricsLoop service dimensions instanceLabel (idx + 1) rest
      { metricDataQueries := p.metricDataQueries ++
          [{ Id := metricDataId, Namespace := service.Namespace, Dimensions := dimensions,
             MetricName := metric.Name, Period := service.Period, Stat := metric.Statistics }]
        queryId2InstanceLabel := p.queryId2InstanceLabel.set metricDataId instanceLabel
        queryId2MetricName := p.queryId2MetricName.set metricDataId metric.Name }

/-- The outer loop `for _, dimensions := range dimList` (lines 234-256). -/
def getMetricData.dimLoop (service : Service) :
    List (List Dimension) → QueryPlan → Except Panic QueryPlan
  | [], p => .ok p
  | dimensions :: rest, p =>
    match joinValueFromDimensions dimensions with
    | .error e => .error e
    | .ok instanceLabel =>
      getMetricData.dimLoop service rest
        (getMetricData.metricsLoop service dimensions instanceLabel 0 service.Metrics p)

/-- Lines 230-256 of `getMetricData`: the queries of one batch and the two lookup maps. -/
def getMetricData.plan (service : Service) (dimList : List (List Dimension)) :
    Except Panic QueryPlan :=
  getMetricData.dimLoop service dimList
    { metricDataQueries := [], queryId2InstanceLabel := GoMap.empty,
      queryId2MetricName := GoMap.empty }

/-- The loop `for index, _ := range metricdata.Timestamps` (lines 268-275). -/
def getMetricData.rowsOfResult (p : QueryPlan) (metricdata : MetricDataResult) :
    List Int → List String → Except Panic (List (List String))
  | [], _ => .ok []
  | _ :: _, [] => .error .indexOutOfRange
  | t :: ts, v :: vs =>
    match getMetricData.rowsOfResult p metricdata ts vs with
    | .error e => .error e
    | .ok rows =>
      .ok ([p.queryId2InstanceLabel.get metricdata.Id, p.queryId2MetricName.get metricdata.Id,
            toString t, v] :: rows)

/-- The loop `for _, metricdata := range resp.MetricDataResults` (lines 267-276). -/
def getMetricData.rows (p : QueryPlan) : List MetricDataResult → Except Panic (List (List String))
  | [] => .ok []
  | metricdata :: rest =>
    match getMetricData.rowsOfResult p metricdata metricdata.Timestamps metricdata.Values with
    | .error e => .error e
    | .ok rows =>
      match getMetricData.rows p rest with
      | .error e => .error e
      | .ok more => .ok (rows ++ more)

/-- Reduction of an integer to the range of a Go `int64` (two's complement wrap-around). -/
def wrapInt64 (x : Int) : Int := (x + 2 ^ 63) % 2 ^ 64 - 2 ^ 63

/-- The duration `time.Duration(int64(offset)) * time.Second * -1` of lines 227-228, in
nanoseconds; both products are `int64` products and wrap around. -/
def durationAgo (offset : Int) : Int :=
  wrapInt64 (wrapInt64 (wrapInt64 offset * 1000000000) * (-1))

/-- The function `getMetricData`; `now` is the reading of `time.Now()` in Unix
nanoseconds, and the two bounds of the window are Unix nanoseconds as well. -/
def getMetricData (api : GetMetricDataInput → Except String (List MetricDataResult))
    (now : Int) (service : Service) (dimList : List (List Dimension)) :
    List Event × Except Panic (List (List String)) :=
  match getMetricData.plan service dimList with
  | .error e => ([], .error e)
  | .ok p =>
    let input : GetMetricDataInput :=
      { EndTime := now + durationAgo service.EndTime,
        StartTime := now + durationAgo service.StartTime,
        MetricDataQueries := p.metricDataQueries }
    match api input with
    | .error e => ([Event.getMetricData input], .error (.apiError e))
    | .ok results => ([Event.getMetricData input], getMetricData.rows p results)

/-- The loop `for idx, dimensions := range dimList` of `parallelGetMetricData`
(lines 289-295). `n` is `len(dimList)`; the remainder `idx % bulkNum` panics when
`bulkNum` is zero. -/
def parallelGetMetricData.batchLoop {α : Type} (bulkNum n : Nat) :
    Nat → List α → List (List α) → List α → Except Panic (List (List α))
  | _, [], dimParams, _ => .ok dimParams
  | idx, dimensions :: rest, dimParams, dimParam =>
    let dimParam1 := dimParam ++ [dimensions]
    if bulkNum = 0 then .error .divideByZero
    else if idx % bulkNum = bulkNum - 1 ∨ idx = n - 1 then
      parallelGetMetricData.batchLoop bulkNum n (idx + 1) rest (dimParams ++ [dimParam1]) []
    else
      parallelGetMetricData.batchLoop bulkNum n (idx + 1) rest dimParams dimParam1

/-- Lines 286-295 of `parallelGetMetricData`: `bulkNum` and the batches `dimParams`.
The division `MaxMetricDataQuery / len(service.Metrics)` panics on an empty metric list. -/
def parallelGetMetricData.dimParams {α : Type} (metricsLen : Nat) (dimList : List α) :
    Except Panic (List (List α)) :=
  if metricsLen = 0 then .error .divideByZero
  else
    parallelGetMetricData.batchLoop (MaxMetricDataQuery / metricsLen) dimList.length
      0 dimList [] []

/-- The goroutines of `parallelGetMetricData` (lines 304-317), one per batch: a receive
from the limiter channel, then `getMetricData`. -/
def parallelGetMetricData.tasks (api : GetMetricDataInput → Except String (List MetricDataResult))
    (now : Int) (service : Service) :
    List (List (List Dimension)) → List Event × Except Panic (List (List String))
  | [] => ([], .ok [])
  | bulkDims :: rest =>
    match getMetricData api now service bulkDims with
    | (tr, .error e) => (Event.limiterGetMetricData :: tr, .error e)
    | (tr, .ok resp) =>
      match parallelGetMetricData.tasks api now service rest with
      | (tr1, .error e) => (Event.limiterGetMetricData :: tr ++ tr1, .error e)
      | (tr1, .ok metricRecords) => (Event.limiterGetMetricData :: tr ++ tr1, .ok (resp ++ metricRecords))

/-- The function `parallelGetMetricData`. -/
def parallelGetMetricData (api : GetMetricDataInput → Except String (List MetricDataResult))
    (now : Int) (service : Service) (dimList : List (List Dimension)) :
    List Event × Except Panic (List (List String)) :=
  match parallelGetMetricData.dimParams service.Metrics.length dimList with
  | .error e => ([], .error e)
  | .ok dimParams => parallelGetMetricData.tasks api now service dimParams

/-! ## Inventory lookups (main.go 322-382) -/

/-- The function `getEc2InstanceStatuses`, given the DescribeInstances response. -/
def getEc2InstanceStatuses (resp : Except String (List Reservation)) : Except Panic GoMap :=
  match resp with
  | .error e => .error (.apiError e)
  | .ok reservations =>
    .ok (reservations.foldl
      (fun instanceStates r =>
        r.Instances.foldl (fun m i => m.set i.InstanceId i.StateName) instanceStates)
      GoMap.empty)

/-- The function `getEc2InstanceNames`, given the DescribeInstances response. -/
def getEc2InstanceNames (resp : Except String (List Reservation)) : Except Panic GoMap :=
  match resp with
  | .error e => .error (.apiError e)
  | .ok reservations =>
    .ok (reservations.foldl
      (fun instanceNames r =>
        r.Instances.foldl
          (fun m i =>
            let tag_name := i.Tags.foldl (fun acc t => if t.Key = "Name" then t.Value else acc) ""
            if tag_name ≠ "" then m.set i.InstanceId tag_name else m)
          instanceNames)
      GoMap.empty)

/-- The closure returned by `makeFuncGetInstanceState`. -/
def instanceStateOf (statusSet : GoMap) (instanceId : String) : String :=
  match statusSet instanceId with
  | some val => val
  | none => "unknown"

/-- The closure returned by `makeFuncGetInstanceName`. -/
def instanceNameOf (idNameSet : GoMap) (instanceId : String) : String :=
  match idNameSet instanceId with
  | some val => val
  | none => instanceId

/-- The function `makeFuncGetInstanceState`. -/
def makeFuncGetInstanceState (resp : Except String (List Reservation)) :
    Except Panic (String → String) :=
  match getEc2InstanceStatuses resp with
  | .error e => .error e
  | .ok statusSet => .ok (instanceStateOf statusSet)

/-- The function `makeFuncGetInstanceName`. -/
def makeFuncGetInstanceName (resp : Except String (List Reservation)) :
    Except Panic (String → String) :=
  match getEc2InstanceNames resp with
  | .error e => .error e
  | .ok idNameSet => .ok (instanceNameOf idNameSet)

/-! ## The per-service part of `main` (main.go 410-463) -/

/-- The two function variables declared at lines 410-411; `none` is the nil function. -/
structure Lookups where
  getInstanceState : Option (String → String)
  getInstanceName : Option (String → String)

/-- Lines 415-418: both lookups are (re)built when the first declared dimension is
`InstanceId`; `service.Dimensions[0]` panics on an empty list. -/
def mainLookups (ec2States ec2Names : Except String (List Reservation))
    (lk : Lookups) (service : Service) : Except Panic Lookups :=
  match service.Dimensions with
  | [] => .error .indexOutOfRange
  | d :: _ =>
    if d = "InstanceId" then
      match makeFuncGetInstanceState ec2States with
      | .error e => .error e
      | .ok gs =>
        match makeFuncGetInstanceName ec2Names with
        | .error e => .error e
        | .ok gn => .ok { getInstanceState := some gs, getInstanceName := some gn }
    else .ok lk

/-- The variables the matching loop reads and writes: `service.Dimensions` (sorted in
place at line 446), `doneList`, `dimList`, and the lines printed in label-only mode. -/
structure MatchState where
  dimensions : List String
  doneList : List String
  dimList : List (List Dimension)
  printed : List String

/-- Lines 438-442: `true` when the entry is skipped because its instance is not running. -/
def skipNotRunning (lk : Lookups) : List Dimension → Except Panic Bool
  | [] => .error .indexOutOfRange
  | d :: _ =>
    if d.Name = "InstanceId" then
      match lk.getInstanceState with
      | none => .error .nilFuncCall
      | some getInstanceState =>
        if getInstanceState d.Value ≠ "running" then .ok true else .ok false
    else .ok false

/-- Lines 448-451: the label of an entry, computed after `dimNames` has been sorted in
place at line 445. -/
def instanceLabel (lk : Lookups) (respDims : List Dimension) : Except Panic String :=
  match joinValueFromDimensions respDims with
  | .error e => .error e
  | .ok joined =>
    match sortStrings (respDims.map (fun d => d.Name)), respDims.map (fun d => d.Value) with
    | [], _ => .error .indexOutOfRange
    | _ :: _, [] => .error .indexOutOfRange
    | n0 :: _, v0 :: _ =>
      if n0 = "InstanceId" then
        match lk.getInstanceName with
        | none => .error .nilFuncCall
        | some getInstanceName => .ok (getInstanceName v0)
      else .ok joined

/-- One iteration of `for _, respMetric := range respList` (lines 428-463). -/
def matchStep (argLabelOnly : Bool) (lk : Lookups) (st : MatchState)
    (respDims : List Dimension) : Except Panic MatchState :=
  match skipNotRunning lk respDims with
  | .error e => .error e
  | .ok true => .ok st
  | .ok false =>
    let dimNames := sortStrings (respDims.map (fun d => d.Name))
    let st1 : MatchState := { st with dimensions := sortStrings st.dimensions }
    if dimNames = st1.dimensions then
      match instanceLabel lk respDims with
      | .error e => .error e
      | .ok label =>
        if arrayContains st1.doneList label then .ok st1
        else if argLabelOnly then
          .ok { st1 with printed := st1.printed ++ [label], doneList := st1.doneList ++ [label] }
        else
          .ok { st1 with dimList := st1.dimList ++ [respDims], doneList := st1.doneList ++ [label] }
    else .ok st1

/-- The loop `for _, respMetric := range respList` (lines 428-463). -/
def matchLoop (argLabelOnly : Bool) (lk : Lookups) :
    MatchState → List (List Dimension) → Except Panic MatchState
  | st, [] => .ok st
  | st, respDims :: rest =>
    match matchStep argLabelOnly lk st respDims with
    | .error e => .error e
    | .ok st1 => matchLoop argLabelOnly lk st1 rest

/-- The state at line 427, before the loop starts. -/
def MatchState.init (service : Service) : MatchState :=
  { dimensions := service.Dimensions, doneList := [], dimList := [], printed := [] }

/-- Lines 412-463 of `main` for one service: the lookups, then the matching loop over
the list `respList` returned by `parallelListMetrics`. -/
def mainMatch (argLabelOnly : Bool) (ec2States ec2Names : Except String (List Reservation))
    (lk : Lookups) (service : Service) (respList : List CWMetric) :
    Except Panic (Lookups × MatchState) :=
  match mainLookups ec2States ec2Names lk service with
  | .error e => .error e
  | .ok lk1 =>
    match matchLoop argLabelOnly lk1 (MatchState.init service)
        (respList.map (fun m => m.Dimensions)) with
    | .error e => .error e
    | .ok st => .ok (lk1, st)

/-! ## Predicates and concrete scenarios used in the statements -/

/-- A service with one metric, used in the concrete scenarios. -/
def exampleService1 : Service :=
  { StartTime := 3600, EndTime := 0, Period := 300, Namespace := "AWS/EC2",
    Dimensions := ["InstanceId"], Metrics := [{ Name := "CPUUtilization", Statistics := "Average" }] }

/-- The resources `i-0`, ..., `i-249` of scenario 3. -/
def exampleResources250 : List (List Dimension) :=
  (List.range 250).map (fun i => [{ Name := "InstanceId", Value := "i-" ++ toString i }])

/-- A service that declares 101 metrics, one more than the per-request cap. -/
def exampleService101 : Service :=
  { StartTime := 3600, EndTime := 0, Period := 300, Namespace := "AWS/EC2",
    Dimensions := ["InstanceId"],
    Metrics := List.replicate 101 { Name := "CPUUtilization", Statistics := "Average" } }

/-- A service with 60 metrics, so that every batch holds a single resource. -/
def exampleService60 : Service :=
  { StartTime := 3600, EndTime := 0, Period := 300, Namespace := "AWS/EC2",
    Dimensions := ["InstanceId"],
    Metrics := List.replicate 60 { Name := "CPUUtilization", Statistics := "Average" } }

/-- A ListMetrics API that serves two pages: the first answer carries the continuation
token `t1`, the answer to the request with a token carries none. -/
def exampleTwoPageApi (input : ListMetricsInput) : Except String ListMetricsOutput :=
  match input.NextToken with
  | none =>
    .ok { Metrics := [{ Namespace := input.Namespace, MetricName := input.MetricName,
                        Dimensions := [{ Name := "InstanceId", Value := "i-1" }] }],
          NextToken := some "t1" }
  | some _ =>
    .ok { Metrics := [{ Namespace := input.Namespace, MetricName := input.MetricName,
                        Dimensions := [{ Name := "InstanceId", Value := "i-2" }] }],
          NextToken := none }

/-- Entry `D` is a candidate with label `l`: it passes the liveness check, its sorted
dimension names equal the sorted declared names, and its label evaluates to `l`. -/
def Cand (lk : Lookups) (dims : List String) (D : List Dimension) (l : String) : Prop :=
  skipNotRunning lk D = .ok false ∧
  sortStrings (D.map (fun d => d.Name)) = sortStrings dims ∧
  instanceLabel lk D = .ok l

/-- Invariant of the matching loop after the entries `pre` have been processed. -/
structure MatchInv (lo : Bool) (lk : Lookups) (dims : List String)
    (pre : List (List Dimension)) (st : MatchState) : Prop where
  dims_eq : sortStrings st.dimensions = sortStrings dims
  nodup : st.doneList.Nodup
  done_iff : ∀ l, l ∈ st.doneList ↔ ∃ D ∈ pre, Cand lk dims D l
  labelOnly : lo = true → st.printed = st.doneList ∧ st.dimList = []
  kept : lo = false → st.printed = [] ∧ List.Forall₂ (Cand lk dims) st.dimList st.doneList
  first : ∀ D ∈ st.dimList, ∃ p1 p2 l, pre = p1 ++ D :: p2 ∧ Cand lk dims D l ∧
    ∀ D1 ∈ p1, ¬ Cand lk dims D1 l
  sub : st.dimList.Sublist pre

/-- An inventory of four instances: `i-a` and `i-d` are running and both carry the
Name tag `web`, `i-b` is stopped, `i-c` is running and has no Name tag. -/
def exampleInventory : Except String (List Reservation) :=
  .ok [{ Instances := [
          { InstanceId := "i-a", StateName := "running", Tags := [{ Key := "Name", Value := "web" }] },
          { InstanceId := "i-b", StateName := "stopped", Tags := [{ Key := "Name", Value := "batch" }] }] },
       { Instances := [
          { InstanceId := "i-c", StateName := "running", Tags := [] },
          { InstanceId := "i-d", StateName := "running", Tags := [{ Key := "Name", Value := "web" }] }] }]

/-- The state map of `exampleInventory`. -/
def exampleStatusSet : GoMap :=
  (((GoMap.empty.set "i-a" "running").set "i-b" "stopped").set "i-c" "running").set "i-d" "running"

/-- The name map of `exampleInventory`. -/
def exampleIdNameSet : GoMap :=
  ((GoMap.empty.set "i-a" "web").set "i-b" "batch").set "i-d" "web"

/-- The lookups built from `exampleInventory`. -/
def exampleLookups : Lookups :=
  { getInstanceState := some (instanceStateOf exampleStatusSet),
    getInstanceName := some (instanceNameOf exampleIdNameSet) }

/-- The metric `CPUUtilization` of instance `id` as ListMetrics reports it. -/
def exampleMetric (id : String) : CWMetric :=
  { Namespace := "AWS/EC2", MetricName := "CPUUtilization",
    Dimensions := [{ Name := "InstanceId", Value := id }] }

/-- A service without declared dimension names. -/
def exampleServiceNoDims : Service :=
  { exampleService1 with Dimensions := [] }

/-- A service of the agent namespace that declares `InstanceId` first. -/
def exampleServiceIdFirst : Service :=
  { StartTime := 3600, EndTime := 0, Period := 300, Namespace := "CWAgent",
    Dimensions := ["InstanceId", "ImageId"],
    Metrics := [{ Name := "mem_used_percent", Statistics := "Average" }] }

/-- The same service with the two dimension names declared in the other order. -/
def exampleServiceIdLast : Service :=
  { exampleServiceIdFirst with Dimensions := ["ImageId", "InstanceId"] }

/-- The dimension set of instance `i-a` as discovered for the agent namespace. -/
def exampleAgentDims : List Dimension :=
  [{ Name := "InstanceId", Value := "i-a" }, { Name := "ImageId", Value := "ami-1" }]

/-- The discovery result holding `exampleAgentDims`. -/
def exampleAgentMetric : CWMetric :=
  { Namespace := "CWAgent", MetricName := "mem_used_percent", Dimensions := exampleAgentDims }

/-- A dimension set whose first name is not `InstanceId` but whose sorted first name is. -/
def exampleTypeDims : List Dimension :=
  [{ Name := "InstanceType", Value := "t3.micro" }, { Name := "InstanceId", Value := "i-a" }]

/-- A service of the Lambda namespace with one metric. -/
def exampleServiceLambda : Service :=
  { StartTime := 3600, EndTime := 0, Period := 300, Namespace := "AWS/Lambda",
    Dimensions := ["FunctionName"], Metrics := [{ Name := "Invocations", Statistics := "Sum" }] }

/-- Two functions whose names differ only by a hyphen. -/
def exampleLambdaBatch : List (List Dimension) :=
  [[{ Name := "FunctionName", Value := "my-func" }], [{ Name := "FunctionName", Value := "myfunc" }]]

/-- Two loop states that agree on everything but the order of `service.Dimensions`. -/
def SameRecords (a b : MatchState) : Prop :=
  a.doneList = b.doneList ∧ a.dimList = b.dimList ∧ a.printed = b.printed ∧
  sortStrings a.dimensions = sortStrings b.dimensions

/-- Outcomes of the loop that agree up to the order of `service.Dimensions`. -/
def SameOutcome : Except Panic MatchState → Except Panic MatchState → Prop
  | .ok a, .ok b => SameRecords a b
  | .error e1, .error e2 => e1 = e2
  | _, _ => False

/-! ## Batch construction -/

/-- The remainder of the next index when the current batch is not yet full. -/
theorem succ_mod_of_lt (idx k : Nat) (h : idx % k + 1 < k) :
    (idx + 1) % k = idx % k + 1 := by
  rw [Nat.add_mod, Nat.mod_eq_of_lt (show 1 < k by omega), Nat.mod_eq_of_lt h]

/-- The remainder of the next index when the current batch has just been filled. -/
theorem succ_mod_of_eq (idx k : Nat) (hk : 0 < k) (h : idx % k = k - 1) :
    (idx + 1) % k = 0 := by
  rcases Nat.lt_or_ge 1 k with h1 | h1
  · rw [Nat.add_mod, Nat.mod_eq_of_lt h1, h, show k - 1 + 1 = k by omega, Nat.mod_self]
  · have hk1 : k = 1 := by omega
    subst hk1
    exact Nat.mod_one _

/-- Loop invariant of the batch loop: started at index `idx` with `dimParams = P` and a
partial batch `p` of `idx % k` elements, the loop appends to `P` the consecutive chunks
of `p ++ rest`. -/
theorem batchLoop_spec {α : Type} (k n : Nat) (hk : 0 < k) :
    ∀ (rest : List α) (idx : Nat) (P : List (List α)) (p : List α),
      n = idx + rest.length → (rest ≠ [] → p.length = idx % k) → (rest = [] → p = []) →
      ∃ out, parallelGetMetricData.batchLoop k n idx rest P p = .ok (P ++ out) ∧
        out.flatten = p ++ rest ∧ (∀ b ∈ out, 1 ≤ b.length ∧ b.length ≤ k) ∧
        (∀ b ∈ out.dropLast, b.length = k) ∧
        out.length = (p.length + rest.length + k - 1) / k := by
  intro rest
  induction rest with
  | nil =>
    intro idx P p _ _ hp
    refine ⟨[], ?_, ?_, ?_, ?_, ?_⟩
    · simp [parallelGetMetricData.batchLoop]
    · simp [hp rfl]
    · simp
    · simp
    · simp [hp rfl]
      exact (Nat.div_eq_of_lt (by omega)).symm
  | cons d rest ih =>
    intro idx P p hn hlen _
    have hplen : p.length = idx % k := hlen (by simp)
    have hmod : idx % k < k := Nat.mod_lt _ hk
    have hk0 : k ≠ 0 := by omega
    by_cases hflush : idx % k = k - 1 ∨ idx = n - 1
    · have hrest : rest ≠ [] → idx % k = k - 1 := by
        intro hne
        rcases hflush with h | h
        · exact h
        · exfalso
          have : 0 < rest.length := List.length_pos.mpr hne
          simp at hn
          omega
      obtain ⟨out, hrun, hjoin, hsz, hfull, hcnt⟩ :=
        ih (idx + 1) (P ++ [p ++ [d]]) [] (by simp at hn ⊢; omega)
          (fun hne => by simp [succ_mod_of_eq idx k hk (hrest hne)]) (fun _ => rfl)
      refine ⟨(p ++ [d]) :: out, ?_, ?_, ?_, ?_, ?_⟩
      · rw [parallelGetMetricData.batchLoop]
        simp only [hk0, if_false, hflush, if_true]
        rw [hrun]
        simp
      · simp [hjoin]
      · intro b hb
        rcases List.mem_cons.mp hb with h | h
        · subst h
          simp
          omega
        · exact hsz b h
      · intro b hb
        by_cases hout : out = []
        · subst hout
          simp at hb
        · rw [List.dropLast_cons_of_ne_nil hout] at hb
          rcases List.mem_cons.mp hb with h | h
          · subst h
            have hne : rest ≠ [] := by
              intro h0
              subst h0
              simp at hjoin
              cases out with
              | nil => exact hout rfl
              | cons b0 out0 =>
                have hlen0 := hsz b0 (by simp)
                have hb0 : b0 = [] := hjoin b0 (by simp)
                subst hb0
                simp at hlen0
            simp
            have := hrest hne
            omega
          · exact hfull b h
      · have hc0 : out.length = (rest.length + k - 1) / k := by simpa using hcnt
        simp only [List.length_cons]
        rw [hc0]
        by_cases hne : rest = []
        · subst hne
          have h1 : (k - 1) / k = 0 := Nat.div_eq_of_lt (by omega)
          have h2 : (p.length + (0 + 1) + k - 1) / k = 1 := by
            rw [show p.length + (0 + 1) + k - 1 = p.length + k by omega, Nat.add_div_right _ hk,
              Nat.div_eq_of_lt (by omega)]
          simp only [List.length_nil, Nat.zero_add] at h2 ⊢
          rw [h1, h2]
        · have := hrest hne
          rw [show p.length + (rest.length + 1) + k - 1 = (rest.length + k - 1) + k by omega,
            Nat.add_div_right _ hk]
    · have hnf1 : idx % k ≠ k - 1 := fun h => hflush (Or.inl h)
      have hnf2 : idx ≠ n - 1 := fun h => hflush (Or.inr h)
      have hne : rest ≠ [] := by
        intro h0
        subst h0
        simp at hn
        omega
      obtain ⟨out, hrun, hjoin, hsz, hfull, hcnt⟩ :=
        ih (idx + 1) P (p ++ [d]) (by simp at hn ⊢; omega)
          (fun _ => by simp [succ_mod_of_lt idx k (by omega), hplen]) (fun h => absurd h hne)
      refine ⟨out, ?_, ?_, hsz, hfull, ?_⟩
      · rw [parallelGetMetricData.batchLoop]
        simp only [hk0, if_false, hflush]
        exact hrun
      · simp [hjoin]
      · rw [hcnt]
        have hsum : (p ++ [d]).length + rest.length + k - 1 =
            p.length + (d :: rest).length + k - 1 := by
          simp only [List.length_append, List.length_cons, List.length_nil]
          omega
        rw [hsum]

/-- The batches of `parallelGetMetricData` for a metric count between 1 and 100. -/
theorem dimParams_spec {α : Type} (m : Nat) (hm1 : 1 ≤ m) (hm : m ≤ 100) (dimList : List α) :
    ∃ out, parallelGetMetricData.dimParams m dimList = .ok out ∧
      out.flatten = dimList ∧ (∀ b ∈ out, 1 ≤ b.length ∧ b.length ≤ 100 / m) ∧
      (∀ b ∈ out.dropLast, b.length = 100 / m) ∧
      out.length = (dimList.length + 100 / m - 1) / (100 / m) := by
  have hk : 0 < 100 / m := Nat.div_pos hm (by omega)
  obtain ⟨out, hrun, hjoin, hsz, hfull, hcnt⟩ :=
    batchLoop_spec (100 / m) dimList.length hk dimList 0 [] []
      (by simp) (fun _ => by simp) (fun _ => rfl)
  refine ⟨out, ?_, by simpa using hjoin, hsz, hfull, by simpa using hcnt⟩
  unfold parallelGetMetricData.dimParams
  rw [if_neg (by omega)]
  simpa [MaxMetricDataQuery] using hrun

/-- The inner loop of `getMetricData` adds one query per metric. -/
theorem metricsLoop_length (service : Service) (dimensions : List Dimension) (label : String) :
    ∀ (metrics : List Metric) (idx : Nat) (p : QueryPlan),
      (getMetricData.metricsLoop service dimensions label idx metrics p).metricDataQueries.length
        = p.metricDataQueries.length + metrics.length := by
  intro metrics
  induction metrics with
  | nil => intro idx p; simp [getMetricData.metricsLoop]
  | cons metric rest ih =>
    intro idx p
    rw [getMetricData.metricsLoop, ih]
    simp
    omega

/-- The outer loop of `getMetricData` adds `len(service.Metrics)` queries per resource. -/
theorem dimLoop_length (service : Service) :
    ∀ (dimList : List (List Dimension)) (p q : QueryPlan),
      getMetricData.dimLoop service dimList p = .ok q →
      q.metricDataQueries.length
        = p.metricDataQueries.length + dimList.length * service.Metrics.length := by
  intro dimList
  induction dimList with
  | nil =>
    intro p q h
    simp [getMetricData.dimLoop] at h
    subst h
    simp
  | cons dimensions rest ih =>
    intro p q h
    rw [getMetricData.dimLoop] at h
    cases hj : joinValueFromDimensions dimensions with
    | error e => rw [hj] at h; simp at h
    | ok label =>
      rw [hj] at h
      rw [ih _ _ h, metricsLoop_length]
      simp [Nat.add_mul]
      omega

set_option maxRecDepth 100000 in
/-- C1: for a service with between 1 and 100 metrics, the batches built by
parallelGetMetricData are the consecutive chunks of the resource list: their
concatenation is the input, every batch but the last has exactly 100 / m elements, the
last has between 1 and 100 / m, no batch is empty, an empty input gives no batches; and
250 resources with one metric give batches of sizes 100, 100, 50. -/
theorem dimParams_consecutive_chunks (service : Service) (dimList : List (List Dimension))
    (hm1 : 1 ≤ service.Metrics.length) (hm : service.Metrics.length ≤ 100) :
    (∃ dimParams,
      parallelGetMetricData.dimParams service.Metrics.length dimList = .ok dimParams ∧
      dimParams.flatten = dimList ∧
      (∀ b ∈ dimParams.dropLast, b.length = 100 / service.Metrics.length) ∧
      (∀ b, dimParams.getLast? = some b →
        1 ≤ b.length ∧ b.length ≤ 100 / service.Metrics.length) ∧
      (∀ b ∈ dimParams, b ≠ []) ∧
      (dimList = [] → dimParams = [])) ∧
    (parallelGetMetricData.dimParams exampleService1.Metrics.length exampleResources250).map
      (fun dimParams => dimParams.map List.length) = .ok [100, 100, 50] := by
  refine ⟨?_, by decide⟩
  obtain ⟨out, hrun, hjoin, hsz, hfull, _⟩ :=
    dimParams_spec service.Metrics.length hm1 hm dimList
  refine ⟨out, hrun, hjoin, hfull, ?_, ?_, ?_⟩
  · intro b hb
    exact hsz b (List.mem_of_getLast?_eq_some hb)
  · intro b hb h0
    have := (hsz b hb).1
    subst h0
    simp at this
  · intro h0
    subst h0
    cases out with
    | nil => rfl
    | cons b0 out0 =>
      exfalso
      have h1 := (hsz b0 (by simp)).1
      have h2 := congrArg List.length hjoin
      simp only [List.flatten_cons, List.length_append, List.length_nil] at h2
      omega

/-- Witness for C1: the theorem applied to scenario 3. -/
theorem dimParams_consecutive_chunks_witness :
    (1 ≤ exampleService1.Metrics.length ∧ exampleService1.Metrics.length ≤ 100) ∧
    ∃ dimParams,
      parallelGetMetricData.dimParams exampleService1.Metrics.length exampleResources250
        = .ok dimParams ∧
      dimParams.flatten = exampleResources250 ∧
      (∀ b ∈ dimParams.dropLast, b.length = 100 / exampleService1.Metrics.length) :=
  ⟨by decide,
    let ⟨dimParams, h1, h2, h3, _⟩ :=
      (dimParams_consecutive_chunks exampleService1 exampleResources250
        (by decide) (by decide)).1
    ⟨dimParams, h1, h2, h3⟩⟩

/-- C2: for a service with between 1 and 100 metrics and R resources, batch construction
yields ceil(R / (100 / m)) batches, written (R + 100 / m - 1) / (100 / m), which is the
least count whose multiple of 100 / m reaches R; every batch has at most 100 / m
resources, so its length times m is at most MaxMetricDataQuery, and the queries
getMetricData builds for it number exactly length times m. -/
theorem dimParams_count_and_cap (service : Service) (dimList : List (List Dimension))
    (hm1 : 1 ≤ service.Metrics.length) (hm : service.Metrics.length ≤ 100) :
    ∃ dimParams,
      parallelGetMetricData.dimParams service.Metrics.length dimList = .ok dimParams ∧
      dimParams.length =
        (dimList.length + MaxMetricDataQuery / service.Metrics.length - 1)
          / (MaxMetricDataQuery / service.Metrics.length) ∧
      (dimList.length ≤ dimParams.length * (MaxMetricDataQuery / service.Metrics.length) ∧
        dimParams.length * (MaxMetricDataQuery / service.Metrics.length)
          < dimList.length + MaxMetricDataQuery / service.Metrics.length) ∧
      (∀ b ∈ dimParams, b.length ≤ MaxMetricDataQuery / service.Metrics.length ∧
        b.length * service.Metrics.length ≤ MaxMetricDataQuery) ∧
      (∀ b ∈ dimParams, ∀ p, getMetricData.plan service b = .ok p →
        p.metricDataQueries.length = b.length * service.Metrics.length ∧
        p.metricDataQueries.length ≤ MaxMetricDataQuery) := by
  obtain ⟨out, hrun, _, hsz, _, hcnt⟩ :=
    dimParams_spec service.Metrics.length hm1 hm dimList
  have hcap : ∀ b ∈ out, b.length * service.Metrics.length ≤ MaxMetricDataQuery := by
    intro b hb
    calc b.length * service.Metrics.length
        ≤ (100 / service.Metrics.length) * service.Metrics.length :=
          Nat.mul_le_mul_right _ (hsz b hb).2
      _ ≤ 100 := Nat.div_mul_le_self _ _
  have hk : 0 < 100 / service.Metrics.length := Nat.div_pos hm (by omega)
  refine ⟨out, hrun, by simpa [MaxMetricDataQuery] using hcnt, ?_, ?_, ?_⟩
  · have hdm := Nat.div_add_mod (dimList.length + 100 / service.Metrics.length - 1)
      (100 / service.Metrics.length)
    have hlt := Nat.mod_lt (dimList.length + 100 / service.Metrics.length - 1) hk
    rw [← hcnt, Nat.mul_comm] at hdm
    simp only [MaxMetricDataQuery]
    constructor <;> omega
  · intro b hb
    exact ⟨by simpa [MaxMetricDataQuery] using (hsz b hb).2, hcap b hb⟩
  · intro b hb p hp
    have hlen := dimLoop_length service b _ p hp
    simp at hlen
    exact ⟨hlen, hlen ▸ hcap b hb⟩

set_option maxRecDepth 100000 in
/-- Witness for C2: 250 resources and one metric give three batches. -/
theorem dimParams_count_and_cap_witness :
    (1 ≤ exampleService1.Metrics.length ∧ exampleService1.Metrics.length ≤ 100) ∧
    ∃ dimParams,
      parallelGetMetricData.dimParams exampleService1.Metrics.length exampleResources250
        = .ok dimParams ∧
      dimParams.length = 3 :=
  ⟨by decide,
    let ⟨dimParams, h1, h2, _⟩ :=
      dimParams_count_and_cap exampleService1 exampleResources250 (by decide) (by decide)
    ⟨dimParams, h1, h2.trans (by decide)⟩⟩

/-- C8, as the code behaves: a service with more than 100 metrics makes
parallelGetMetricData panic with a division by zero, before any limiter receive or
GetMetricData call, for every non-empty resource list; for the empty resource list the
function returns normally, with no batch, no request and no record. -/
theorem parallelGetMetricData_over_cap
    (api : GetMetricDataInput → Except String (List MetricDataResult)) (now : Int)
    (service : Service) (dimList : List (List Dimension))
    (hm : MaxMetricDataQuery < service.Metrics.length) :
    (dimList ≠ [] →
      parallelGetMetricData api now service dimList = ([], .error .divideByZero)) ∧
    (dimList = [] → parallelGetMetricData api now service dimList = ([], .ok [])) := by
  have hm0 : service.Metrics.length ≠ 0 := by
    unfold MaxMetricDataQuery at hm
    omega
  have hdiv : MaxMetricDataQuery / service.Metrics.length = 0 := Nat.div_eq_of_lt hm
  constructor
  · intro hne
    cases dimList with
    | nil => exact absurd rfl hne
    | cons d rest =>
      simp [parallelGetMetricData, parallelGetMetricData.dimParams, hm0, hdiv,
        parallelGetMetricData.batchLoop]
  · intro h0
    subst h0
    simp [parallelGetMetricData, parallelGetMetricData.dimParams, hm0,
      parallelGetMetricData.batchLoop, parallelGetMetricData.tasks]

/-- Witness for C8 as amended: 101 metrics and one resource. -/
theorem parallelGetMetricData_over_cap_witness :
    MaxMetricDataQuery < exampleService101.Metrics.length ∧
    parallelGetMetricData (fun _ => .ok []) 0 exampleService101
      [[{ Name := "InstanceId", Value := "i-1" }]] = ([], .error .divideByZero) :=
  ⟨by decide,
    (parallelGetMetricData_over_cap (fun _ => .ok []) 0 exampleService101
      [[{ Name := "InstanceId", Value := "i-1" }]] (by decide)).1 (by decide)⟩

/-- C8 fails as stated: with 101 metrics and the empty resource list
parallelGetMetricData returns normally instead of failing. -/
theorem parallelGetMetricData_over_cap_empty_returns :
    MaxMetricDataQuery < exampleService101.Metrics.length ∧
    parallelGetMetricData (fun _ => .ok []) 0 exampleService101 [] = ([], .ok []) := by
  decide

/-! ## Discovery and the limiter -/

/-- A listing of `n` pages makes the pagination loop issue `n` calls and no limiter
receive, as soon as the iteration bound is at least `n`. -/
theorem listMetricsLoop_calls (api : ListMetricsInput → Except String ListMetricsOutput)
    (tok : Option String) (input : ListMetricsInput) (n : Nat)
    (h : PagesFrom api tok input n) :
    ∀ (fuel : Nat) (metricList : List CWMetric), n ≤ fuel →
      ∃ tr r, listMetricsLoop api fuel tok input metricList = some (tr, r) ∧
        permits tr = 0 ∧ calls tr = n := by
  induction h with
  | done input =>
    intro fuel metricList _
    exact ⟨[], .ok metricList, by cases fuel <;> simp [listMetricsLoop], by decide, by decide⟩
  | failed tok input e he =>
    intro fuel metricList hf
    obtain ⟨f, rfl⟩ : ∃ f, fuel = f + 1 := ⟨fuel - 1, by omega⟩
    refine ⟨[Event.listMetrics (listMetricsRequest tok input)], .error (.apiError e), ?_, ?_, ?_⟩
    · simp [listMetricsLoop, he]
    · simp [permits]
    · simp [calls, Event.isListMetrics]
  | page tok input resp n he _ ih =>
    intro fuel metricList hf
    obtain ⟨f, rfl⟩ : ∃ f, fuel = f + 1 := ⟨fuel - 1, by omega⟩
    obtain ⟨tr, r, hrun, hp, hc⟩ := ih f
      (metricList ++ resp.Metrics.filter (fun m => m.Dimensions.length != 0)) (by omega)
    refine ⟨Event.listMetrics (listMetricsRequest tok input) :: tr, r, ?_, ?_, ?_⟩
    · simp [listMetricsLoop, he, hrun]
    · simpa [permits] using hp
    · simpa [calls, Event.isListMetrics] using hc

/-- What a discovery task does for a listing of n pages: it receives from the limiter
exactly once, before its first ListMetrics call, and then makes all n page calls (n is
at least 1) without a further receive. -/
theorem discoveryTask_one_permit (api : ListMetricsInput → Except String ListMetricsOutput)
    (service : Service) (metricName : String) (n fuel : Nat)
    (h : PagesFrom api (some "")
      { Namespace := service.Namespace, MetricName := metricName, NextToken := none } n)
    (hf : n ≤ fuel) :
    ∃ tr r, discoveryTask api fuel service metricName = some (tr, r) ∧
      tr.head? = some Event.limiterListMetrics ∧ permits tr = 1 ∧ calls tr = n ∧ 1 ≤ n := by
  obtain ⟨tr, r, hrun, hp, hc⟩ := listMetricsLoop_calls api _ _ n h fuel [] hf
  refine ⟨Event.limiterListMetrics :: tr, r, ?_, rfl, ?_, ?_, ?_⟩
  · simp [discoveryTask, listMetrics, hrun]
  · simp [permits] at hp ⊢
    exact hp
  · simpa [calls, Event.isListMetrics] using hc
  · cases h with
    | failed => exact Nat.le_refl 1
    | page => exact Nat.succ_le_succ (Nat.zero_le _)

/-- The two-page listing as an instance: one receive from the limiter, two calls. -/
theorem discoveryTask_one_permit_witness :
    ∃ tr r, discoveryTask exampleTwoPageApi 2 exampleService1 "CPUUtilization" = some (tr, r) ∧
      tr.head? = some Event.limiterListMetrics ∧ permits tr = 1 ∧ calls tr = 2 ∧ 1 ≤ 2 :=
  discoveryTask_one_permit exampleTwoPageApi exampleService1 "CPUUtilization" 2 2
    (PagesFrom.page "" _ _ 1 rfl (PagesFrom.page "t1" _ _ 0 rfl (PagesFrom.done _)))
    (Nat.le_refl 2)

set_option maxRecDepth 100000 in
/-- C10, evaluated: for a metric name whose listing has two pages the discovery task
receives from the limiter once and then makes two ListMetrics calls, the second one
directly after the first with no receive in between; the pagination loop of lines
172-188 never passes the gate of line 209. The number of permits (1) differs from the
number of calls (2). The retrieval path, for two batches, receives from its limiter
before each of its two GetMetricData calls. -/
theorem discoveryTask_permits_ne_calls :
    (discoveryTask exampleTwoPageApi 2 exampleService1 "CPUUtilization").map
        (fun x => (permits x.1, calls x.1, x.1.map Event.isListMetrics))
      = some (1, 2, [false, true, true]) ∧
    (parallelGetMetricData (fun _ => .ok []) 1700000300000000000 exampleService60
        [[{ Name := "InstanceId", Value := "i-a" }], [{ Name := "InstanceId", Value := "i-c" }]]).1.map
      (fun e => decide (e = Event.limiterGetMetricData)) = [true, false, true, false] := by
  refine ⟨?_, ?_⟩ <;> decide

/-! ## The matching loop -/

/-- The function `arrayContains` decides list membership. -/
theorem arrayContains_iff (arr : List String) (str : String) :
    arrayContains arr str = true ↔ str ∈ arr := by
  induction arr with
  | nil => simp [arrayContains]
  | cons v arr ih =>
    by_cases h : v = str
    · simp [arrayContains, h]
    · simp [arrayContains, h, ih, Ne.symm h]

/-- Sorting forgets the order of the input. -/
theorem sortStrings_perm {l1 l2 : List String} (h : l1.Perm l2) :
    sortStrings l1 = sortStrings l2 :=
  List.eq_of_perm_of_sorted
    (((List.perm_insertionSort strLE l1).trans h).trans (List.perm_insertionSort strLE l2).symm)
    (List.sorted_insertionSort strLE l1) (List.sorted_insertionSort strLE l2)

/-- Sorting a sorted slice changes nothing. -/
theorem sortStrings_idem (l : List String) : sortStrings (sortStrings l) = sortStrings l :=
  List.Sorted.insertionSort_eq (List.sorted_insertionSort strLE l)

/-- Two slices sort to the same slice exactly when they are permutations of each other. -/
theorem sortStrings_eq_iff_perm (l1 l2 : List String) :
    sortStrings l1 = sortStrings l2 ↔ l1.Perm l2 := by
  constructor
  · intro h
    have h1 : (sortStrings l1).Perm l1 := List.perm_insertionSort strLE l1
    have h2 : (sortStrings l2).Perm l2 := List.perm_insertionSort strLE l2
    rw [h] at h1
    exact h1.symm.trans h2
  · exact sortStrings_perm

/-- Being a candidate depends on the declared names only through their sorted list. -/
theorem Cand_congr (lk : Lookups) {d1 d2 : List String} (h : sortStrings d1 = sortStrings d2)
    (D : List Dimension) (l : String) : Cand lk d1 D l ↔ Cand lk d2 D l := by
  simp [Cand, h]

/-- What one iteration does when it does not panic: either nothing is recorded, and then
every label the entry could contribute is already in `doneList`, or the entry is a
candidate with a new label, which is recorded. -/
theorem matchStep_ok_cases (lo : Bool) (lk : Lookups) (st st1 : MatchState)
    (D : List Dimension) (h : matchStep lo lk st D = .ok st1) :
    sortStrings st1.dimensions = sortStrings st.dimensions ∧
    ((st1.doneList = st.doneList ∧ st1.dimList = st.dimList ∧ st1.printed = st.printed ∧
        ∀ l, Cand lk st.dimensions D l → l ∈ st.doneList) ∨
     (∃ l, Cand lk st.dimensions D l ∧ l ∉ st.doneList ∧
        st1.doneList = st.doneList ++ [l] ∧
        st1.dimList = (if lo then st.dimList else st.dimList ++ [D]) ∧
        st1.printed = (if lo then st.printed ++ [l] else st.printed))) := by
  unfold matchStep at h
  cases hskip : skipNotRunning lk D with
  | error e => rw [hskip] at h; simp at h
  | ok b =>
    rw [hskip] at h
    cases b with
    | true =>
      simp at h
      subst h
      refine ⟨rfl, Or.inl ⟨rfl, rfl, rfl, ?_⟩⟩
      intro l hl
      have := hl.1
      rw [hskip] at this
      simp at this
    | false =>
      simp only at h
      by_cases hm : sortStrings (D.map (fun d => d.Name)) = sortStrings st.dimensions
      · rw [if_pos hm] at h
        cases hlab : instanceLabel lk D with
        | error e => rw [hlab] at h; simp at h
        | ok label =>
          rw [hlab] at h
          simp only at h
          by_cases hc : arrayContains st.doneList label = true
          · rw [if_pos hc] at h
            simp at h
            subst h
            refine ⟨sortStrings_idem _, Or.inl ⟨rfl, rfl, rfl, ?_⟩⟩
            intro l hl
            have := hl.2.2
            rw [hlab] at this
            simp at this
            subst this
            exact (arrayContains_iff _ _).mp hc
          · rw [if_neg hc] at h
            have hnew : label ∉ st.doneList := fun hx => hc ((arrayContains_iff _ _).mpr hx)
            cases lo with
            | true =>
              simp at h
              subst h
              exact ⟨sortStrings_idem _, Or.inr ⟨label, ⟨hskip, hm, hlab⟩, hnew, rfl, rfl, rfl⟩⟩
            | false =>
              simp at h
              subst h
              exact ⟨sortStrings_idem _, Or.inr ⟨label, ⟨hskip, hm, hlab⟩, hnew, rfl, rfl, rfl⟩⟩
      · rw [if_neg hm] at h
        simp at h
        subst h
        refine ⟨sortStrings_idem _, Or.inl ⟨rfl, rfl, rfl, ?_⟩⟩
        intro l hl
        exact absurd hl.2.1 hm

/-- The invariant holds before the first iteration. -/
theorem MatchInv.init (lo : Bool) (lk : Lookups) (service : Service) :
    MatchInv lo lk service.Dimensions [] (MatchState.init service) where
  dims_eq := rfl
  nodup := List.nodup_nil
  done_iff := by intro l; simp [MatchState.init]
  labelOnly := fun _ => ⟨rfl, rfl⟩
  kept := fun _ => ⟨rfl, List.Forall₂.nil⟩
  first := by intro D hD; simp [MatchState.init] at hD
  sub := List.Sublist.refl _

/-- One iteration that does not panic preserves the invariant. -/
theorem MatchInv.step {lo : Bool} {lk : Lookups} {dims : List String}
    {pre : List (List Dimension)} {st st1 : MatchState} {D : List Dimension}
    (inv : MatchInv lo lk dims pre st) (h : matchStep lo lk st D = .ok st1) :
    MatchInv lo lk dims (pre ++ [D]) st1 := by
  obtain ⟨hd, hcase⟩ := matchStep_ok_cases lo lk st st1 D h
  have hcand : ∀ l, Cand lk st.dimensions D l ↔ Cand lk dims D l :=
    fun l => Cand_congr lk inv.dims_eq D l
  rcases hcase with ⟨h1, h2, h3, hseen⟩ | ⟨l, hl, hnew, h1, h2, h3⟩
  · refine ⟨hd.trans inv.dims_eq, h1 ▸ inv.nodup, ?_, ?_, ?_, ?_, ?_⟩
    · intro l
      rw [h1, inv.done_iff]
      constructor
      · rintro ⟨D1, hD1, hc⟩
        exact ⟨D1, List.mem_append_left _ hD1, hc⟩
      · rintro ⟨D1, hD1, hc⟩
        rcases List.mem_append.mp hD1 with hp | hp
        · exact ⟨D1, hp, hc⟩
        · have hD : D1 = D := by simpa using hp
          subst hD
          exact (inv.done_iff l).mp (hseen l ((hcand l).mpr hc))
    · intro hlo
      rw [h1, h2, h3]
      exact inv.labelOnly hlo
    · intro hlo
      rw [h1, h2, h3]
      exact inv.kept hlo
    · intro D0 hD0
      rw [h2] at hD0
      obtain ⟨p1, p2, l, hsplit, hc, hfirst⟩ := inv.first D0 hD0
      exact ⟨p1, p2 ++ [D], l, by simp [hsplit], hc, hfirst⟩
    · rw [h2]
      exact inv.sub.trans (List.sublist_append_left _ _)
  · have hlc : Cand lk dims D l := (hcand l).mp hl
    have hnone : ∀ D1 ∈ pre, ¬ Cand lk dims D1 l := by
      intro D1 hD1 hc
      exact hnew ((inv.done_iff l).mpr ⟨D1, hD1, hc⟩)
    refine ⟨hd.trans inv.dims_eq, ?_, ?_, ?_, ?_, ?_, ?_⟩
    · rw [h1]
      exact List.Nodup.append inv.nodup (List.nodup_singleton l)
        (by intro x hx hx1; simp at hx1; subst hx1; exact hnew hx)
    · intro l1
      rw [h1, List.mem_append, inv.done_iff]
      constructor
      · rintro (⟨D1, hD1, hc⟩ | hx)
        · exact ⟨D1, List.mem_append_left _ hD1, hc⟩
        · have hx1 : l1 = l := by simpa using hx
          subst hx1
          exact ⟨D, by simp, hlc⟩
      · rintro ⟨D1, hD1, hc⟩
        rcases List.mem_append.mp hD1 with hp | hp
        · exact Or.inl ⟨D1, hp, hc⟩
        · have hD : D1 = D := by simpa using hp
          subst hD
          have hll : l1 = l := by
            have e1 := hc.2.2
            rw [hlc.2.2] at e1
            simpa using e1.symm
          exact Or.inr (by simp [hll])
    · intro hlo
      subst hlo
      rw [h1, h2, h3]
      simp [(inv.labelOnly rfl).1, (inv.labelOnly rfl).2]
    · intro hlo
      subst hlo
      rw [h1, h2, h3]
      refine ⟨by simpa using (inv.kept rfl).1, ?_⟩
      simpa using List.rel_append (inv.kept rfl).2 (List.Forall₂.cons hlc List.Forall₂.nil)
    · intro D0 hD0
      rw [h2] at hD0
      have hold : D0 ∈ st.dimList →
          ∃ p1 p2 l, pre ++ [D] = p1 ++ D0 :: p2 ∧ Cand lk dims D0 l ∧
            ∀ D1 ∈ p1, ¬ Cand lk dims D1 l := by
        intro hmem
        obtain ⟨p1, p2, l0, hsplit, hc, hfirst⟩ := inv.first D0 hmem
        exact ⟨p1, p2 ++ [D], l0, by simp [hsplit], hc, hfirst⟩
      cases lo with
      | true => exact hold (by simpa using hD0)
      | false =>
        have hD0a : D0 ∈ st.dimList ∨ D0 = D := by simpa using hD0
        rcases hD0a with hmem | hD
        · exact hold hmem
        · subst hD
          exact ⟨pre, [], l, rfl, hlc, hnone⟩
    · rw [h2]
      cases lo with
      | true => exact inv.sub.trans (List.sublist_append_left _ _)
      | false => exact List.Sublist.append inv.sub (List.Sublist.refl _)

/-- A run of the loop that does not panic preserves the invariant. -/
theorem MatchInv.loop {lo : Bool} {lk : Lookups} {dims : List String} :
    ∀ (rest pre : List (List Dimension)) (st st1 : MatchState),
      MatchInv lo lk dims pre st → matchLoop lo lk st rest = .ok st1 →
      MatchInv lo lk dims (pre ++ rest) st1 := by
  intro rest
  induction rest with
  | nil =>
    intro pre st st1 inv h
    simp [matchLoop] at h
    subst h
    simpa using inv
  | cons D rest ih =>
    intro pre st st1 inv h
    rw [matchLoop] at h
    cases hs : matchStep lo lk st D with
    | error e => rw [hs] at h; simp at h
    | ok st2 =>
      rw [hs] at h
      have := ih (pre ++ [D]) st2 st1 (inv.step hs) h
      simpa using this

/-- Entries paired with duplicate-free labels have pairwise distinct labels. -/
theorem pairwise_of_forall₂_nodup (lk : Lookups) (dims : List String) :
    ∀ (Ds : List (List Dimension)) (ls : List String),
      List.Forall₂ (Cand lk dims) Ds ls → ls.Nodup →
      Ds.Pairwise (fun D D1 => ∀ l l1,
        instanceLabel lk D = .ok l → instanceLabel lk D1 = .ok l1 → l ≠ l1) := by
  intro Ds ls h
  induction h with
  | nil => intro _; exact List.Pairwise.nil
  | @cons D l Ds ls hc hrest ih =>
    intro hnd
    rw [List.nodup_cons] at hnd
    refine List.Pairwise.cons ?_ (ih hnd.2)
    intro D1 hD1 l0 l1 e0 e1 hll
    obtain ⟨l2, hl2, hc2⟩ : ∃ l2 ∈ ls, Cand lk dims D1 l2 := by
      clear ih hnd
      induction hrest with
      | nil => simp at hD1
      | @cons Dx lx Dxs lxs hcx _ ihx =>
        rcases List.mem_cons.mp hD1 with hx | hx
        · subst hx
          exact ⟨lx, by simp, hcx⟩
        · obtain ⟨l2, hl2, hc2⟩ := ihx hx
          exact ⟨l2, List.mem_cons_of_mem _ hl2, hc2⟩
    have e3 := hc.2.2
    have e4 := hc2.2.2
    rw [e0] at e3
    rw [e1] at e4
    have e5 : l0 = l := by simpa using e3
    have e6 : l1 = l2 := by simpa using e4
    subst e5 e6 hll
    exact hnd.1 hl2

/-- The loop over a concatenation is the loop over the second part started from the
result of the first. -/
theorem matchLoop_append (lo : Bool) (lk : Lookups) :
    ∀ (pre rest : List (List Dimension)) (st : MatchState),
      matchLoop lo lk st (pre ++ rest) =
        match matchLoop lo lk st pre with
        | .error e => .error e
        | .ok st1 => matchLoop lo lk st1 rest := by
  intro pre
  induction pre with
  | nil => intro rest st; simp [matchLoop]
  | cons D pre ih =>
    intro rest st
    simp only [List.cons_append, matchLoop]
    cases matchStep lo lk st D with
    | error e => rfl
    | ok st1 => exact ih rest st1

/-- Sorting a non-empty slice gives a non-empty slice. -/
theorem sortStrings_ne_nil {l : List String} (h : l ≠ []) : sortStrings l ≠ [] := by
  intro h0
  have hp : (sortStrings l).Perm l := List.perm_insertionSort strLE l
  rw [h0] at hp
  exact h (List.Perm.nil_eq hp).symm

/-- With both lookups built and no empty dimension set in the input, no iteration of the
matching loop panics. -/
theorem matchLoop_total (lo : Bool) (lk : Lookups) (gs gn : String → String)
    (hgs : lk.getInstanceState = some gs) (hgn : lk.getInstanceName = some gn) :
    ∀ (respList : List (List Dimension)) (st : MatchState),
      (∀ D ∈ respList, D ≠ []) → ∃ st1, matchLoop lo lk st respList = .ok st1 := by
  intro respList
  induction respList with
  | nil => intro st _; exact ⟨st, rfl⟩
  | cons D rest ih =>
    intro st hne
    have hstep : ∃ st2, matchStep lo lk st D = .ok st2 := by
      cases D with
      | nil => exact absurd rfl (hne [] (by simp))
      | cons d tl =>
        have hsne : sortStrings ((d :: tl).map (fun d => d.Name)) ≠ [] :=
          sortStrings_ne_nil (by simp)
        obtain ⟨n0, ns, hsort⟩ := List.exists_cons_of_ne_nil hsne
        have hlab : ∃ l, instanceLabel lk (d :: tl) = .ok l := by
          unfold instanceLabel
          rw [hsort]
          simp only [joinValueFromDimensions, List.map_cons, hgn]
          by_cases hn : n0 = "InstanceId"
          · exact ⟨_, by rw [if_pos hn]⟩
          · exact ⟨_, by rw [if_neg hn]⟩
        obtain ⟨l, hl⟩ := hlab
        unfold matchStep
        simp only [skipNotRunning, hgs, hl]
        by_cases h1 : d.Name = "InstanceId" <;> by_cases h2 : gs d.Value ≠ "running" <;>
          simp only [h1, h2, if_true, if_false] <;>
          split_ifs <;> exact ⟨_, rfl⟩
    obtain ⟨st2, hs⟩ := hstep
    obtain ⟨st1, hl⟩ := ih st2 (fun D1 hD1 => hne D1 (List.mem_cons_of_mem _ hD1))
    exact ⟨st1, by rw [matchLoop, hs]; exact hl⟩

/-- C4: deduplication in the matching loop is by label, first occurrence winning. For
every run of the loop that completes: doneList has no duplicates and holds exactly the
labels of the live, name-matching entries; in label-only mode the printed lines are
doneList; otherwise dimList is paired entry by entry with doneList, its entries have
pairwise distinct labels, it is a subsequence of the input, and each kept entry is
the first candidate in discovery order with its label. An entry whose label is already
recorded is dropped without error, and with both lookups built and no empty dimension
set the loop completes. In scenario 2 one line is printed. -/
theorem matchLoop_dedup_first_wins (lo : Bool) (lk : Lookups) (service : Service)
    (respList : List (List Dimension)) :
    (∀ st, matchLoop lo lk (MatchState.init service) respList = .ok st →
      st.doneList.Nodup ∧
      (∀ l, l ∈ st.doneList ↔ ∃ D ∈ respList, Cand lk service.Dimensions D l) ∧
      (lo = true → st.printed = st.doneList ∧ st.dimList = []) ∧
      (lo = false → st.printed = [] ∧
        List.Forall₂ (Cand lk service.Dimensions) st.dimList st.doneList) ∧
      st.dimList.Pairwise (fun D D1 => ∀ l l1,
        instanceLabel lk D = .ok l → instanceLabel lk D1 = .ok l1 → l ≠ l1) ∧
      (∀ D ∈ st.dimList, ∃ p1 p2 l, respList = p1 ++ D :: p2 ∧
        Cand lk service.Dimensions D l ∧ ∀ D1 ∈ p1, ¬ Cand lk service.Dimensions D1 l) ∧
      st.dimList.Sublist respList) ∧
    (∀ st D l, Cand lk st.dimensions D l → l ∈ st.doneList →
      matchStep lo lk st D = .ok { st with dimensions := sortStrings st.dimensions }) ∧
    (∀ gs gn, lk.getInstanceState = some gs → lk.getInstanceName = some gn →
      (∀ D ∈ respList, D ≠ []) →
      ∃ st, matchLoop lo lk (MatchState.init service) respList = .ok st) ∧
    (mainMatch true exampleInventory exampleInventory
        { getInstanceState := none, getInstanceName := none } exampleService1
        [exampleMetric "i-a", exampleMetric "i-d", exampleMetric "i-a"]).map
      (fun r => (r.2.printed, r.2.doneList)) = .ok (["web"], ["web"]) := by
  refine ⟨?_, ?_, ?_, by decide⟩
  · intro st h
    have inv : MatchInv lo lk service.Dimensions respList st := by
      simpa using MatchInv.loop respList [] _ st (MatchInv.init lo lk service) h
    refine ⟨inv.nodup, inv.done_iff, inv.labelOnly, inv.kept, ?_, inv.first, inv.sub⟩
    cases lo with
    | true => rw [(inv.labelOnly rfl).2]; exact List.Pairwise.nil
    | false => exact pairwise_of_forall₂_nodup lk _ _ _ (inv.kept rfl).2 inv.nodup
  · intro st D l hc hl
    obtain ⟨h1, h2, h3⟩ := hc
    unfold matchStep
    rw [h1]
    simp only [h2, h3, if_true, (arrayContains_iff _ _).mpr hl]
  · intro gs gn hgs hgn hne
    exact matchLoop_total lo lk gs gn hgs hgn respList _ hne

/-- Witness for C4: two running instances with the same Name tag, label-only mode. -/
theorem matchLoop_dedup_first_wins_witness :
    ∃ st, matchLoop true exampleLookups (MatchState.init exampleService1)
        [[{ Name := "InstanceId", Value := "i-a" }], [{ Name := "InstanceId", Value := "i-d" }]]
        = .ok st ∧
      st.doneList.Nodup ∧ st.printed = st.doneList ∧ st.dimList = [] :=
  let h := matchLoop_dedup_first_wins true exampleLookups exampleService1
    [[{ Name := "InstanceId", Value := "i-a" }], [{ Name := "InstanceId", Value := "i-d" }]]
  let ⟨st, hst⟩ := h.2.2.1 _ _ rfl rfl (by decide)
  ⟨st, hst, (h.1 st hst).1, ((h.1 st hst).2.2.1 rfl).1, ((h.1 st hst).2.2.1 rfl).2⟩

/-- C5: an entry whose first dimension is InstanceId and whose first value the state
lookup resolves to something other than running (unknown for an identifier the
inventory does not hold) leaves the loop state unchanged: the loop ends as if the entry
were not in the input, and the entry is not in dimList. In scenario 1 the stopped B is
left out and A and C are kept. -/
theorem matchLoop_drops_not_running (lo : Bool) (lk : Lookups) (statusSet : GoMap)
    (d0 : Dimension) (tl : List Dimension)
    (hs : lk.getInstanceState = some (instanceStateOf statusSet))
    (hn : d0.Name = "InstanceId")
    (hr : instanceStateOf statusSet d0.Value ≠ "running") :
    (∀ st, matchStep lo lk st (d0 :: tl) = .ok st) ∧
    (∀ st pre post, matchLoop lo lk st (pre ++ (d0 :: tl) :: post)
      = matchLoop lo lk st (pre ++ post)) ∧
    (∀ service respList st, matchLoop lo lk (MatchState.init service) respList = .ok st →
      (d0 :: tl) ∉ st.dimList) ∧
    (∀ id, statusSet id = none → instanceStateOf statusSet id = "unknown") ∧
    (mainMatch false exampleInventory exampleInventory
        { getInstanceState := none, getInstanceName := none } exampleService1
        [exampleMetric "i-a", exampleMetric "i-b", exampleMetric "i-c"]).map
      (fun r => (r.2.dimList, r.2.doneList, r.2.printed))
      = .ok ([[{ Name := "InstanceId", Value := "i-a" }], [{ Name := "InstanceId", Value := "i-c" }]],
          ["web", "i-c"], []) := by
  have hskip : skipNotRunning lk (d0 :: tl) = .ok true := by
    simp [skipNotRunning, hn, hs, hr]
  have hstep : ∀ st, matchStep lo lk st (d0 :: tl) = .ok st := by
    intro st
    unfold matchStep
    rw [hskip]
  refine ⟨hstep, ?_, ?_, ?_, by decide⟩
  · intro st pre post
    rw [matchLoop_append, matchLoop_append lo lk pre post]
    cases matchLoop lo lk st pre with
    | error e => rfl
    | ok st1 => simp only [matchLoop, hstep]
  · intro service respList st h hmem
    have inv : MatchInv lo lk service.Dimensions respList st := by
      simpa using MatchInv.loop respList [] _ st (MatchInv.init lo lk service) h
    obtain ⟨_, _, l, _, hc, _⟩ := inv.first _ hmem
    have := hc.1
    rw [hskip] at this
    simp at this
  · intro id hid
    simp [instanceStateOf, hid]

/-- Witness for C5: the stopped instance `i-b` and an instance the inventory does not
hold. -/
theorem matchLoop_drops_not_running_witness :
    (∀ st, matchStep false exampleLookups st [{ Name := "InstanceId", Value := "i-b" }] = .ok st) ∧
    (∀ st, matchStep false exampleLookups st [{ Name := "InstanceId", Value := "i-gone" }]
      = .ok st) :=
  ⟨(matchLoop_drops_not_running false exampleLookups exampleStatusSet
      { Name := "InstanceId", Value := "i-b" } [] rfl rfl (by decide)).1,
   (matchLoop_drops_not_running false exampleLookups exampleStatusSet
      { Name := "InstanceId", Value := "i-gone" } [] rfl rfl (by decide)).1⟩

/-! ## Declared dimension names and the lookups -/

/-- C9, as the code behaves: for a service whose declared dimension-name list is empty,
processing in main panics with an index out of range at the test of the first declared
name (line 415), before the lookups are built, before discovery and before the matching
loop; so nothing is kept or printed. The matching step itself, run with an empty declared
list, records nothing whenever it completes. -/
theorem mainMatch_empty_dimensions (lo : Bool)
    (ec2States ec2Names : Except String (List Reservation)) (lk : Lookups)
    (service : Service) (respList : List CWMetric) (h : service.Dimensions = []) :
    mainMatch lo ec2States ec2Names lk service respList = .error .indexOutOfRange ∧
    (∀ st D st1, st.dimensions = [] → matchStep lo lk st D = .ok st1 →
      st1.doneList = st.doneList ∧ st1.dimList = st.dimList ∧ st1.printed = st.printed) := by
  constructor
  · simp [mainMatch, mainLookups, h]
  · intro st D st1 hd hstep
    obtain ⟨_, hcase⟩ := matchStep_ok_cases lo lk st st1 D hstep
    rcases hcase with ⟨h1, h2, h3, _⟩ | ⟨l, hc, _⟩
    · exact ⟨h1, h2, h3⟩
    · exfalso
      obtain ⟨hskip, hm, _⟩ := hc
      rw [hd] at hm
      cases D with
      | nil => simp [skipNotRunning] at hskip
      | cons d tl =>
        have hne : sortStrings ((d :: tl).map (fun d => d.Name)) ≠ [] :=
          sortStrings_ne_nil (by simp)
        exact hne (by rw [hm]; rfl)

/-- Witness for C9 as amended. -/
theorem mainMatch_empty_dimensions_witness :
    mainMatch false exampleInventory exampleInventory
      { getInstanceState := none, getInstanceName := none } exampleServiceNoDims
      [exampleMetric "i-a"] = .error .indexOutOfRange :=
  (mainMatch_empty_dimensions false exampleInventory exampleInventory
    { getInstanceState := none, getInstanceName := none } exampleServiceNoDims
    [exampleMetric "i-a"] rfl).1

/-- C9 fails as stated: processing a service with no declared dimension names panics. -/
theorem mainMatch_empty_dimensions_panics :
    exampleServiceNoDims.Dimensions = [] ∧
    (mainMatch true exampleInventory exampleInventory
        { getInstanceState := none, getInstanceName := none } exampleServiceNoDims
        [exampleMetric "i-a"]).map (fun r => (r.2.dimList, r.2.printed))
      = .error .indexOutOfRange := by
  decide

/-- C3, evaluated: the first service of a run declares the names InstanceId and ImageId.
Declared with InstanceId first, the running instance `i-a` is kept; declared in the
other order, the lookups are never built and the same discovery result makes the
liveness check call a nil function. With the names InstanceType and InstanceId the
label computation calls the nil name lookup although the entry passed the liveness
check and its sorted names match. -/
theorem mainMatch_declared_order_changes_outcome :
    exampleServiceIdLast.Dimensions.Perm exampleServiceIdFirst.Dimensions ∧
    (mainMatch false exampleInventory exampleInventory
        { getInstanceState := none, getInstanceName := none } exampleServiceIdFirst
        [exampleAgentMetric]).map (fun r => r.2.dimList) = .ok [exampleAgentDims] ∧
    (mainMatch false exampleInventory exampleInventory
        { getInstanceState := none, getInstanceName := none } exampleServiceIdLast
        [exampleAgentMetric]).map (fun r => r.2.dimList) = .error .nilFuncCall ∧
    (mainMatch false exampleInventory exampleInventory
        { getInstanceState := none, getInstanceName := none }
        { exampleServiceIdFirst with Dimensions := ["InstanceId", "InstanceType"] }
        [{ exampleAgentMetric with Dimensions := exampleTypeDims }]).map
      (fun r => r.2.dimList) = .ok [exampleTypeDims] ∧
    skipNotRunning { getInstanceState := none, getInstanceName := none } exampleTypeDims
      = .ok false ∧
    sortStrings (exampleTypeDims.map (fun d => d.Name))
      = sortStrings ["InstanceType", "InstanceId"] ∧
    (mainMatch false exampleInventory exampleInventory
        { getInstanceState := none, getInstanceName := none }
        { exampleServiceIdFirst with Dimensions := ["InstanceType", "InstanceId"] }
        [{ exampleAgentMetric with Dimensions := exampleTypeDims }]).map
      (fun r => r.2.dimList) = .error .nilFuncCall := by
  refine ⟨List.Perm.swap _ _ _, ?_, ?_, ?_, ?_, ?_, ?_⟩ <;> decide

/-- C7, evaluated: the test of line 449 reads `dimNames[0]` after `dimNames` was sorted.
For instance `i-a` (running, Name tag `web`) discovered as InstanceId, ImageId the first
dimension is InstanceId, yet the label is the joined values and not `web`; for an entry
discovered as InstanceType, InstanceId the first dimension is not InstanceId, yet the
label is the name lookup of the first value and not the joined values. -/
theorem instanceLabel_reads_sorted_names :
    (exampleAgentDims.head?.map (fun d => d.Name) = some "InstanceId" ∧
      instanceNameOf exampleIdNameSet "i-a" = "web" ∧
      instanceLabel exampleLookups exampleAgentDims = .ok "i-a-ami-1" ∧
      (mainMatch false exampleInventory exampleInventory
          { getInstanceState := none, getInstanceName := none } exampleServiceIdFirst
          [exampleAgentMetric]).map (fun r => (r.2.dimList, r.2.doneList))
        = .ok ([exampleAgentDims], ["i-a-ami-1"])) ∧
    (exampleTypeDims.head?.map (fun d => d.Name) = some "InstanceType" ∧
      joinValueFromDimensions exampleTypeDims = .ok "t3.micro-i-a" ∧
      instanceLabel exampleLookups exampleTypeDims = .ok "t3.micro" ∧
      (mainMatch false exampleInventory exampleInventory
          { getInstanceState := none, getInstanceName := none }
          { exampleServiceIdFirst with Dimensions := ["InstanceId", "InstanceType"] }
          [{ exampleAgentMetric with Dimensions := exampleTypeDims }]).map
        (fun r => (r.2.dimList, r.2.doneList))
        = .ok ([exampleTypeDims], ["t3.micro"])) := by
  refine ⟨⟨?_, ?_, ?_, ?_⟩, ⟨?_, ?_, ?_, ?_⟩⟩ <;> decide

/-! ## Query identifiers -/

/-- C6, evaluated: the functions `my-func` and `myfunc` survive matching with the two
distinct labels `my-func` and `myfunc`, but both queries of the batch get the identifier
`myfunc_0`, and the lookup map resolves it to `myfunc` only: a series returned for
`myfunc_0` is reported under the label `myfunc`. -/
theorem metricDataId_collision :
    (mainMatch false exampleInventory exampleInventory
        { getInstanceState := none, getInstanceName := none } exampleServiceLambda
        (exampleLambdaBatch.map (fun D =>
          { Namespace := "AWS/Lambda", MetricName := "Invocations", Dimensions := D }))).map
      (fun r => (r.2.dimList, r.2.doneList)) = .ok (exampleLambdaBatch, ["my-func", "myfunc"]) ∧
    (getMetricData.plan exampleServiceLambda exampleLambdaBatch).map
      (fun p => (p.metricDataQueries.map (fun q => (q.Id, q.Dimensions)),
        p.queryId2InstanceLabel.get "myfunc_0"))
      = .ok ([("myfunc_0", [{ Name := "FunctionName", Value := "my-func" }]),
              ("myfunc_0", [{ Name := "FunctionName", Value := "myfunc" }])], "myfunc") ∧
    (getMetricData
        (fun _ => .ok [{ Id := "myfunc_0", Timestamps := [1700000000], Values := ["3"] }])
        1700000300000000000 exampleServiceLambda exampleLambdaBatch).2
      = .ok [["myfunc", "Invocations", "1700000000", "3"]] := by
  refine ⟨?_, ?_, ?_⟩ <;> decide

/-! ## Order of the declared names inside the loop -/

/-- One iteration maps states that agree up to the order of the declared names to
outcomes that agree up to that order. -/
theorem matchStep_sameRecords (lo : Bool) (lk : Lookups) (a b : MatchState)
    (D : List Dimension) (h : SameRecords a b) :
    SameOutcome (matchStep lo lk a D) (matchStep lo lk b D) := by
  obtain ⟨h1, h2, h3, h4⟩ := h
  unfold matchStep
  cases skipNotRunning lk D with
  | error e => simp [SameOutcome]
  | ok skip =>
    cases skip with
    | true => exact ⟨h1, h2, h3, h4⟩
    | false =>
      simp only [h4, h1, h2, h3]
      by_cases hm : sortStrings (D.map (fun d => d.Name)) = sortStrings b.dimensions
      · simp only [hm, if_true]
        cases instanceLabel lk D with
        | error e => simp [SameOutcome]
        | ok label =>
          by_cases hc : arrayContains b.doneList label = true
          · simp only [hc, if_true]
            exact ⟨rfl, rfl, rfl, rfl⟩
          · cases lo with
            | true =>
              simp only [hc, if_true]
              exact ⟨rfl, rfl, rfl, rfl⟩
            | false =>
              simp only [hc]
              exact ⟨rfl, rfl, rfl, rfl⟩
      · simp only [hm, if_false]
        exact ⟨rfl, rfl, rfl, rfl⟩

/-- The loop maps states that agree up to the order of the declared names to outcomes
that agree up to that order. -/
theorem matchLoop_sameRecords (lo : Bool) (lk : Lookups) :
    ∀ (respList : List (List Dimension)) (a b : MatchState), SameRecords a b →
      SameOutcome (matchLoop lo lk a respList) (matchLoop lo lk b respList) := by
  intro respList
  induction respList with
  | nil => intro a b h; exact h
  | cons D rest ih =>
    intro a b h
    have hs := matchStep_sameRecords lo lk a b D h
    simp only [matchLoop]
    cases ha : matchStep lo lk a D with
    | error e1 =>
      cases hb : matchStep lo lk b D with
      | error e2 => rw [ha, hb] at hs; exact hs
      | ok b1 => rw [ha, hb] at hs; exact hs.elim
    | ok a1 =>
      cases hb : matchStep lo lk b D with
      | error e2 => rw [ha, hb] at hs; exact hs.elim
      | ok b1 => rw [ha, hb] at hs; exact ih a1 b1 hs

/-- Inside the loop, with the lookups fixed, an entry that passes the liveness check and
has a new label is kept exactly when its names are a permutation of the declared names. -/
theorem matchStep_kept_iff (lo : Bool) (lk : Lookups) (st : MatchState) (D : List Dimension)
    (l : String) (hlive : skipNotRunning lk D = .ok false)
    (hlab : instanceLabel lk D = .ok l) (hnew : l ∉ st.doneList) :
    ∃ st1, matchStep lo lk st D = .ok st1 ∧
      ((st1.doneList = st.doneList ++ [l] ∧
          st1.dimList = (if lo then st.dimList else st.dimList ++ [D]) ∧
          st1.printed = (if lo then st.printed ++ [l] else st.printed))
        ↔ (D.map (fun d => d.Name)).Perm st.dimensions) := by
  have hc : ¬ arrayContains st.doneList l = true :=
    fun h => hnew ((arrayContains_iff _ _).mp h)
  unfold matchStep
  rw [hlive]
  simp only [hlab]
  rw [← sortStrings_eq_iff_perm]
  by_cases hm : sortStrings (D.map (fun d => d.Name)) = sortStrings st.dimensions
  · cases lo <;> simp [hm, hc]
  · simp only [hm, if_false]
    refine ⟨_, rfl, ?_⟩
    simp

/-- Inside the loop, with the lookups fixed, the outcome does not depend on the order in
which the declared names are listed. -/
theorem matchLoop_declared_order (lo : Bool) (lk : Lookups) (s1 s2 : Service)
    (hperm : s1.Dimensions.Perm s2.Dimensions) (respList : List (List Dimension)) :
    SameOutcome (matchLoop lo lk (MatchState.init s1) respList)
      (matchLoop lo lk (MatchState.init s2) respList) :=
  matchLoop_sameRecords lo lk respList _ _ ⟨rfl, rfl, rfl, sortStrings_perm hperm⟩

end CWCollector
